import Mathlib

set_option maxRecDepth 8000

/-!
Shallow embedding of `src/yta_run_reports.py` (YouTube Analytics report
runner) for checking the specification's claims.

Modelling choices:
- Calendar dates are integer day numbers (`Int`); `daysFromCivil` converts
  a Gregorian date to its day number, so Python `date` arithmetic with
  `timedelta(days = n)` becomes integer addition and subtraction.
- A pandas DataFrame is a list of rows (plus, where needed, its column
  list); the output directory is an association list from file name to
  table content.
- The remote Analytics endpoint is a finite list of rows; a query at
  one-based start index `s` with page size `p` returns the next at most
  `p` rows of that list (the interface of spec section 6).
-/

/-- Day number of a Gregorian calendar date (days since 1970-01-01), the
standard civil-from-days conversion.  It models Python `datetime.date`
values so that `timedelta(days = n)` becomes `+ n` on day numbers. -/
def daysFromCivil (y m d : Int) : Int :=
  let yy := if 2 < m then y else y - 1
  let era := (if 0 ≤ yy then yy else yy - 399) / 400
  let yoe := yy - era * 400
  let mp := (m + 9) % 12
  let doy := (153 * mp + 2) / 5 + d - 1
  let doe := yoe * 365 + yoe / 4 - yoe / 100 + doy
  era * 146097 + doe - 719468

/-- Config constant from the source: `MAX_RESULTS = 200`. -/
def MAX_RESULTS : Nat := 200

/-- Config constant from the source: the fixed reference time zone
`PACIFIC_TZ = "America/Los_Angeles"` used by `now_pacific_iso`. -/
def PACIFIC_TZ : String := "America/Los_Angeles"

/-- The metric names that the source joins into `METRICS_BASIC`. -/
def METRICS_BASIC_LIST : List String :=
  ["views", "estimatedMinutesWatched", "averageViewDuration",
   "averageViewPercentage", "subscribersGained", "subscribersLost",
   "likes", "dislikes", "comments", "shares"]

/-- Source lines 21-32: `METRICS_BASIC = ",".join([...])`. -/
def METRICS_BASIC : String := String.intercalate "," METRICS_BASIC_LIST

/-- One entry of the `REPORTS` dict:
`key -> (metrics, sort, filters, maxResults, dimensions, filename prefix)`.
The last field (the output file name stem) is called `outName` here. -/
structure ReportSpec where
  metrics : String
  sort : Option String
  filters : Option String
  maxResults : Option Nat
  dimensions : String
  outName : String
  deriving DecidableEq

/-- The `REPORTS` registry (source lines 35-50), in declaration order. -/
def REPORTS : List (String × ReportSpec) :=
  [("day",
    ⟨METRICS_BASIC, some "day", none, none, "day", "yta_daily_trend"⟩),
   ("country",
    ⟨METRICS_BASIC, some "-views", none, some MAX_RESULTS, "country",
     "yta_country"⟩),
   ("traffic_sources",
    ⟨"views,estimatedMinutesWatched,averageViewDuration,averageViewPercentage",
     some "-views", none, none, "insightTrafficSourceType",
     "yta_traffic_sources"⟩),
   ("top_videos",
    ⟨"views,estimatedMinutesWatched,averageViewDuration,averageViewPercentage,subscribersGained,subscribersLost,likes,comments,shares",
     some "-views", none, some MAX_RESULTS, "video", "yta_top_videos"⟩)]

/-- Page size as computed in `run_report` (line 208):
`page_size = max_results or MAX_RESULTS`, where Python `or` treats both
`None` and `0` as absent. -/
def pageSize : Option Nat → Nat
  | none => MAX_RESULTS
  | some 0 => MAX_RESULTS
  | some (m + 1) => m + 1

/-- The rows one query returns (lines 210-226): the remote source holds the
list `remote`; a query at one-based index `s` returns the next at most
`pageSize maxr` rows. -/
def pageRows {α : Type} (remote : List α) (maxr : Option Nat) (s : Nat) :
    List α :=
  (remote.drop (s - 1)).take (pageSize maxr)

/-- Line 232: `reached_cap = max_results is not None and
(start_index - 1) + len(rows) >= max_results`. -/
def reachedCap (maxr : Option Nat) (s rowsLen : Nat) : Bool :=
  match maxr with
  | some m => decide (m ≤ s - 1 + rowsLen)
  | none => false

/-- The pagination loop of `run_report` (lines 210-235), with explicit
fuel.  Returns the accumulated rows together with the number of query
requests issued; `none` when the fuel runs out (the termination theorem
shows that `remote.length + 1` fuel always suffices). -/
def runReportFuel {α : Type} (remote : List α) (maxr : Option Nat) :
    Nat → Nat → List α → Nat → Option (List α × Nat)
  | 0, _, _, _ => none
  | fuel + 1, s, acc, reqs =>
    let rows := pageRows remote maxr s
    if rows.length < pageSize maxr ∨ reachedCap maxr s rows.length = true
    then some (acc ++ rows, reqs + 1)
    else runReportFuel remote maxr fuel (s + pageSize maxr) (acc ++ rows)
        (reqs + 1)

/-- `run_report` (lines 193-237): start at index 1 with an empty
accumulator. -/
def run_report {α : Type} (remote : List α) (maxr : Option Nat) :
    Option (List α × Nat) :=
  runReportFuel remote maxr (remote.length + 1) 1 [] 0

/-- A canonical table: rows of (natural key, payload). -/
abbrev Table := List (Nat × Nat)

/-- Model of `save_csv` (lines 64-69): write `df` to the file
`<outName>.csv` in the output directory, replacing any previous content
of that file and touching no other file.  The directory is an association
list from file name to table content. -/
def save_csv (fs : List (String × Table)) (outName : String) (df : Table) :
    List (String × Table) :=
  (outName ++ ".csv", df) :: fs.filter (fun e => !(e.1 == outName ++ ".csv"))

/-- The `empty_cols` mapping of the error handler in `main`
(lines 365-370), including the `.get(key, [])` default. -/
def empty_cols (key : String) : List String :=
  if key = "country" then
    ["country", "from_date_time", "to_date_time", "refresh_date"]
  else if key = "traffic_sources" then
    ["insightTrafficSourceType", "from_date_time", "to_date_time",
     "refresh_date"]
  else if key = "top_videos" then
    ["video", "from_date_time", "to_date_time", "refresh_date"]
  else if key = "day" then
    ["day", "refresh_date"]
  else []

/-- Columns of the dataframe a successful branch of `main` saves: the
fetched columns plus `from_date_time`, `to_date_time`, `refresh_date` for
the `top_videos` branch (lines 291-293 and 317-319) and the
`country` / `traffic_sources` branch (lines 342-345), but only
`refresh_date` in the final (day) branch (lines 358-359). -/
def outputColumns (key : String) (fetchedCols : List String) : List String :=
  if key = "top_videos" ∨ key = "country" ∨ key = "traffic_sources" then
    fetchedCols ++ ["from_date_time", "to_date_time", "refresh_date"]
  else fetchedCols ++ ["refresh_date"]

/-- Modelled from the spec: the remote query client answers a query with
column headers naming the grouping dimension followed by one header per
requested metric (spec section 6, `{columnHeaders: [name...]}`). -/
def apiColumnHeaders (dimensions : String) (metricNames : List String) :
    List String :=
  dimensions :: metricNames

/-- The report loop of `main` (lines 271-372).  For each requested key,
the catalog lookup `REPORTS[key]` happens before the `try` block, so an
unregistered key raises `KeyError` and aborts the loop; this is the
`some key` in the second component, and no further key is processed.  For
a registered key, a failure in any stage (the oracle `fails`) is caught
and an empty placeholder with header `empty_cols key` is saved, while a
successful run saves the fetched columns plus the metadata columns.  Each
performed save is recorded as `(file name stem, header)`. -/
def mainLoop :
    List String → (String → Bool) → (String → List String) →
    List (String × List String) × Option String
  | [], _, _ => ([], none)
  | key :: rest, fails, fetched =>
    match List.lookup key REPORTS with
    | none => ([], some key)
    | some spec =>
      let w :=
        if fails key then (spec.outName, empty_cols key)
        else (spec.outName, outputColumns key (fetched key))
      let r := mainLoop rest fails fetched
      (w :: r.1, r.2)

/-- CLI override resolution (lines 265-266): the overrides take effect
only when both `--start` and `--end` are supplied; a partial override is
treated as absent, without an error. -/
def resolveOverrides (argStart argEnd : Option Int) :
    Option Int × Option Int :=
  match argStart, argEnd with
  | some s, some e => (some s, some e)
  | _, _ => (none, none)

/-- The primary query window per report key:  the day report uses
`start_override or (last_rec_date - timedelta(days=30))` (line 349), the
other reports use `start_override or channel_start_iso` (lines 277 and
332); every branch uses `end_override or last_rec_iso` as the end bound
(lines 281, 336 and 353). -/
def resolveWindow (startOv endOv : Option Int) (lastRec channelStart : Int)
    (key : String) : Int × Int :=
  if key = "day" then (startOv.getD (lastRec - 30), endOv.getD lastRec)
  else (startOv.getD channelStart, endOv.getD lastRec)

/-- The per-video refinement window of the `top_videos` branch
(lines 302-308): the start is `pub_map.get(vid, date(2025, 8, 28))` - the
start override is not consulted there - and the end is
`end_override or last_rec_iso`. -/
def refineWindow (startOv endOv : Option Int) (lastRec : Int)
    (pubDate : Option Int) : Int × Int :=
  (pubDate.getD (daysFromCivil 2025 8 28), endOv.getD lastRec)

/-- `latest_analytics_date` (lines 172-191): `none` when the probe raises
or returns no rows, otherwise the date in the last returned row. -/
def latest_analytics_date (resp : Except Unit (List Int)) : Option Int :=
  match resp with
  | Except.error _ => none
  | Except.ok rows => rows.getLast?

/-- Line 255: `last_rec_date = latest_analytics_date(yta) or
(date.today() - timedelta(days=3))`. -/
def lastRecDate (probe : Option Int) (today : Int) : Int :=
  probe.getD (today - 3)

/-! ## Helper lemmas -/

theorem pageSize_pos (maxr : Option Nat) : 1 ≤ pageSize maxr := by
  rcases maxr with _ | m
  · decide
  · cases m
    · decide
    · simp [pageSize]

theorem runReportFuel_isSome (remote : List Nat) (maxr : Option Nat) :
    ∀ (fuel s : Nat) (acc : List Nat) (reqs : Nat),
      1 ≤ s → s ≤ remote.length + 1 → remote.length + 2 - s ≤ fuel →
      (runReportFuel remote maxr fuel s acc reqs).isSome = true := by
  intro fuel
  induction fuel with
  | zero => intro s acc reqs h1 h2 h3; omega
  | succ fuel ih =>
    intro s acc reqs h1 h2 h3
    by_cases hstop : (pageRows remote maxr s).length < pageSize maxr ∨
        reachedCap maxr s (pageRows remote maxr s).length = true
    · simp only [runReportFuel]
      rw [if_pos hstop]
      rfl
    · push_neg at hstop
      have hlen : pageSize maxr ≤ (pageRows remote maxr s).length :=
        hstop.1
      have hdl : (pageRows remote maxr s).length
          = min (pageSize maxr) (remote.length - (s - 1)) := by
        simp [pageRows, List.length_take, List.length_drop]
      rw [hdl] at hlen
      have hple : pageSize maxr ≤ remote.length - (s - 1) :=
        le_trans hlen (min_le_right _ _)
      have hpos := pageSize_pos maxr
      have hstop2 : ¬ ((pageRows remote maxr s).length < pageSize maxr ∨
          reachedCap maxr s (pageRows remote maxr s).length = true) := by
        push_neg
        exact hstop
      simp only [runReportFuel]
      rw [if_neg hstop2]
      exact ih (s + pageSize maxr) (acc ++ pageRows remote maxr s) (reqs + 1)
        (by omega) (by omega) (by omega)

theorem runReportFuel_none_rows (remote : List Nat) :
    ∀ (fuel s : Nat) (acc : List Nat) (reqs : Nat),
      1 ≤ s → s ≤ remote.length + 1 → remote.length + 2 - s ≤ fuel →
      ∃ r, runReportFuel remote none fuel s acc reqs
        = some (acc ++ remote.drop (s - 1), r) := by
  intro fuel
  induction fuel with
  | zero => intro s acc reqs h1 h2 h3; omega
  | succ fuel ih =>
    intro s acc reqs h1 h2 h3
    have hdl : (pageRows remote none s).length
        = min (pageSize none) (remote.length - (s - 1)) := by
      simp [pageRows, List.length_take, List.length_drop]
    by_cases hstop : (pageRows remote none s).length < pageSize none ∨
        reachedCap none s (pageRows remote none s).length = true
    · refine ⟨reqs + 1, ?_⟩
      simp only [runReportFuel]
      rw [if_pos hstop]
      have hshort : (pageRows remote none s).length < pageSize none := by
        rcases hstop with h | h
        · exact h
        · exact absurd h (by simp [reachedCap])
      have hle : (remote.drop (s - 1)).length ≤ pageSize none := by
        rw [hdl] at hshort
        have := List.length_drop (s - 1) remote
        omega
      have hrows : pageRows remote none s = remote.drop (s - 1) := by
        unfold pageRows
        exact List.take_of_length_le hle
      rw [hrows]
    · push_neg at hstop
      have hlen := hstop.1
      rw [hdl] at hlen
      have hple : pageSize none ≤ remote.length - (s - 1) :=
        le_trans hlen (min_le_right _ _)
      have hpos := pageSize_pos none
      have hstop2 : ¬ ((pageRows remote none s).length < pageSize none ∨
          reachedCap none s (pageRows remote none s).length = true) := by
        push_neg
        exact hstop
      obtain ⟨r, hr⟩ := ih (s + pageSize none)
        (acc ++ pageRows remote none s) (reqs + 1)
        (by omega) (by omega) (by omega)
      refine ⟨r, ?_⟩
      simp only [runReportFuel]
      rw [if_neg hstop2, hr]
      have hsplit : (acc ++ pageRows remote none s)
          ++ remote.drop (s + pageSize none - 1)
          = acc ++ remote.drop (s - 1) := by
        rw [List.append_assoc]
        congr 1
        have he : s + pageSize none - 1 = (s - 1) + pageSize none := by omega
        rw [he, ← List.drop_drop]
        unfold pageRows
        exact List.take_append_drop _ _
      rw [hsplit]

theorem run_report_none (l : List Nat) :
    (run_report l none).map Prod.fst = some l := by
  obtain ⟨r, hr⟩ := runReportFuel_none_rows l (l.length + 1) 1 [] 0
    (by omega) (by omega) (by omega)
  unfold run_report
  rw [hr]
  simp

theorem run_report_cap (l : List Nat) (k : Nat) (hk : 1 ≤ k) :
    run_report l (some k) = some (l.take k, 1) := by
  unfold run_report
  have hps : pageSize (some k) = k := by
    cases k with
    | zero => omega
    | succ n => rfl
  have hrows : pageRows l (some k) 1 = l.take k := by
    simp [pageRows, hps]
  have hcond : (pageRows l (some k) 1).length < pageSize (some k) ∨
      reachedCap (some k) 1 (pageRows l (some k) 1).length = true := by
    rcases Nat.lt_or_ge l.length k with h | h
    · left
      rw [hrows, hps, List.length_take]
      omega
    · right
      rw [hrows]
      simp only [reachedCap, List.length_take, decide_eq_true_eq]
      omega
  simp only [runReportFuel]
  rw [if_pos hcond, hrows]
  simp

theorem lookup_filter_ne (x other : String) (fs : List (String × Table))
    (h : ¬ other = x) :
    List.lookup other (fs.filter (fun e => !(e.1 == x)))
      = List.lookup other fs := by
  induction fs with
  | nil => rfl
  | cons e t ih =>
    obtain ⟨k, v⟩ := e
    by_cases hkx : k = x
    · have hp : (!(k == x)) = false := by simp [hkx]
      have hok : (other == k) = false := by
        subst hkx
        exact beq_eq_false_iff_ne.mpr h
      simp [List.filter_cons, hp, List.lookup, hok, ih]
    · have hp : (!(k == x)) = true := by simp [hkx]
      by_cases hok : other = k
      · simp [List.filter_cons, hp, List.lookup, hok]
      · have hb : (other == k) = false := beq_eq_false_iff_ne.mpr hok
        simp [List.filter_cons, hp, List.lookup, hb, ih]

/-! ## Claims -/

/-- C1 (amended): `save_csv` performs no merge and no deduplication: after
a save, the persisted canonical table is exactly the dataframe passed to
that save - rows written by earlier saves are discarded, and duplicate
natural keys inside the new dataframe are preserved as they are.  Files
other than the canonical one are untouched. -/
theorem c1_save_overwrites (fs : List (String × Table)) (outName : String)
    (df : Table) :
    List.lookup (outName ++ ".csv") (save_csv fs outName df) = some df
    ∧ ∀ other : String, ¬ other = outName ++ ".csv" →
        List.lookup other (save_csv fs outName df)
          = List.lookup other fs := by
  constructor
  · simp [save_csv, List.lookup]
  · intro other hne
    have hbeq : (other == outName ++ ".csv") = false :=
      beq_eq_false_iff_ne.mpr hne
    simp only [save_csv, List.lookup, hbeq]
    exact lookup_filter_ne _ _ fs hne

theorem c1_save_overwrites_witness :
    List.lookup ("yta_country" ++ ".csv")
        (save_csv [] "yta_country" [(1, 2)]) = some [(1, 2)]
    ∧ List.lookup "x" (save_csv [] "yta_country" [(1, 2)])
        = List.lookup "x" ([] : List (String × Table)) :=
  ⟨(c1_save_overwrites [] "yta_country" [(1, 2)]).1,
   (c1_save_overwrites [] "yta_country" [(1, 2)]).2 "x" (by decide)⟩

/-- C1 counterexample: the canonical table is first saved with rows for
keys 1 and 2, then saved again with two rows for key 1.  Afterwards the
persisted table is exactly the second dataframe: key 2 (present in the
union of all rows ever written) has no row, and key 1 has two rows, so
the table does not hold exactly one row per distinct natural key. -/
theorem c1_counterexample :
    List.lookup ("yta_country" ++ ".csv")
        (save_csv (save_csv [] "yta_country" [(1, 10), (2, 50)])
          "yta_country" [(1, 20), (1, 30)])
      = some [(1, 20), (1, 30)]
    ∧ (([(1, 20), (1, 30)] : Table).filter (fun r => r.1 == 1)).length = 2
    ∧ (([(1, 20), (1, 30)] : Table).filter (fun r => r.1 == 2)).length = 0 := by
  refine ⟨?_, ?_, ?_⟩ <;> decide

/-- C2 (amended): `save_csv` creates no backup: the only file it writes is
the canonical `<name>.csv` itself, whose previous content is replaced in
place; every file name present afterwards is either the canonical name or
was already present before, so no dated backup copy appears. -/
theorem c2_no_backup (fs : List (String × Table)) (outName : String)
    (df : Table) :
    List.lookup (outName ++ ".csv") (save_csv fs outName df) = some df
    ∧ ∀ p ∈ (save_csv fs outName df).map Prod.fst,
        p = outName ++ ".csv" ∨ p ∈ fs.map Prod.fst := by
  constructor
  · simp [save_csv, List.lookup]
  · intro p hp
    simp only [save_csv, List.map_cons, List.mem_cons] at hp
    rcases hp with hp | hp
    · exact Or.inl hp
    · right
      obtain ⟨e, he, hep⟩ := List.mem_map.mp hp
      exact List.mem_map.mpr ⟨e, List.mem_of_mem_filter he, hep⟩

theorem c2_no_backup_witness :
    List.lookup ("yta_country" ++ ".csv")
        (save_csv [("a.csv", [])] "yta_country" []) = some []
    ∧ ("a.csv" = "yta_country" ++ ".csv"
        ∨ "a.csv" ∈ ([("a.csv", ([] : Table))]).map Prod.fst) :=
  ⟨(c2_no_backup [("a.csv", [])] "yta_country" []).1,
   (c2_no_backup [("a.csv", [])] "yta_country" []).2 "a.csv" (by decide)⟩

/-- C2 counterexample: a canonical file for the country report exists with
content `[(1, 10)]`; the next save replaces it with `[(2, 20)]` and the
resulting directory holds exactly the canonical file - no dated backup
copy was created before the overwrite, and the pre-merge content is
gone. -/
theorem c2_counterexample :
    save_csv [("yta_country" ++ ".csv", [(1, 10)])] "yta_country" [(2, 20)]
      = [("yta_country" ++ ".csv", [(2, 20)])]
    ∧ (save_csv [("yta_country" ++ ".csv", [(1, 10)])] "yta_country"
        [(2, 20)]).map Prod.fst = ["yta_country" ++ ".csv"] := by
  refine ⟨?_, ?_⟩ <;> decide

/-- C3: pagination terminates.  The page size computed by `run_report` is
always at least 1 (so every continuing iteration strictly increases the
start index, by `pageSize maxr`), the loop with `remote.length + 1` fuel
always returns a result for every finite remote row list, and when the
very first page is already short the loop stops at once with all rows. -/
theorem c3_pagination_terminates (remote : List Nat) (maxr : Option Nat) :
    1 ≤ pageSize maxr
    ∧ (run_report remote maxr).isSome = true
    ∧ (remote.length < pageSize maxr →
        run_report remote maxr = some (remote, 1)) := by
  refine ⟨pageSize_pos maxr, ?_, ?_⟩
  · exact runReportFuel_isSome remote maxr (remote.length + 1) 1 [] 0
      (by omega) (by omega) (by omega)
  · intro hshort
    unfold run_report
    have hrows : pageRows remote maxr 1 = remote := by
      unfold pageRows
      simp only [Nat.sub_self, List.drop_zero]
      exact List.take_of_length_le (Nat.le_of_lt hshort)
    have hcond : (pageRows remote maxr 1).length < pageSize maxr ∨
        reachedCap maxr 1 (pageRows remote maxr 1).length = true := by
      left
      rw [hrows]
      exact hshort
    simp only [runReportFuel]
    rw [if_pos hcond, hrows]
    simp

theorem c3_pagination_terminates_witness :
    run_report [0] none = some ([0], 1) :=
  (c3_pagination_terminates [0] none).2.2 (by decide)

/-- C4 (amended): with no explicit cap the accumulated rows equal the
whole remote row list; with an explicit cap `m ≥ 1` the page size equals
the cap, so a single request returns the first `min m total` rows and the
loop stops.  In particular the catalog entry for `country` carries the
cap `MAX_RESULTS = 200`, so fetching it against a 250-row remote returns
200 rows with exactly 1 request, not 250 rows with 2 requests. -/
theorem c4_row_totals (remote : List Nat) (m : Nat) :
    (run_report remote none).map Prod.fst = some remote
    ∧ (1 ≤ m → run_report remote (some m) = some (remote.take m, 1))
    ∧ run_report (List.range 250) (some MAX_RESULTS)
        = some (List.range 200, 1) := by
  refine ⟨run_report_none remote, fun hm => run_report_cap remote m hm, ?_⟩
  rw [run_report_cap (List.range 250) MAX_RESULTS (by decide)]
  congr 1

theorem c4_row_totals_witness :
    (run_report (List.range 5) none).map Prod.fst = some (List.range 5)
    ∧ run_report (List.range 5) (some 3) = some ((List.range 5).take 3, 1) :=
  ⟨(c4_row_totals (List.range 5) 3).1,
   (c4_row_totals (List.range 5) 3).2.1 (by decide)⟩

/-- C4 counterexample: the catalog's `country` entry supplies the explicit
cap 200, and a fetch against a remote holding 250 rows stops at the cap:
it returns 200 rows in 1 request, not the claimed 250 rows in 2
requests. -/
theorem c4_counterexample :
    (List.lookup "country" REPORTS).map (fun s => s.maxResults)
      = some (some 200)
    ∧ run_report (List.range 250) (some 200) = some (List.range 200, 1)
    ∧ run_report (List.range 250) (some 200) ≠ some (List.range 250, 2) := by
  refine ⟨by decide, ?_, ?_⟩
  · rw [run_report_cap (List.range 250) 200 (by decide)]
    congr 1
  · rw [run_report_cap (List.range 250) 200 (by decide)]
    intro h
    have h1 := Option.some.inj h
    have h2 := congrArg (fun p => p.1.length) h1
    simp only [List.length_take, List.length_range] at h2
    omega

/-- C5 (amended): for registered report keys the orchestrator contains
failures per report: a stage error for one report saves an empty
placeholder whose header is the fixed `empty_cols` header for that report
- the grouping dimension plus the metadata columns, not the full column
set (with metrics) that a successful run produces - and the loop
continues, saving one file per requested registered key and never
aborting. -/
theorem c5_placeholder_and_continue (keys : List String)
    (fails : String → Bool) (fetched : String → List String)
    (hreg : ∀ k ∈ keys, (List.lookup k REPORTS).isSome = true) :
    (mainLoop keys fails fetched).2 = none
    ∧ (mainLoop keys fails fetched).1.length = keys.length
    ∧ ∀ k ∈ keys, fails k = true →
        ∃ spec, List.lookup k REPORTS = some spec
          ∧ (spec.outName, empty_cols k) ∈ (mainLoop keys fails fetched).1 := by
  revert hreg
  induction keys with
  | nil =>
    intro hreg
    exact ⟨rfl, rfl, by intro k hk; cases hk⟩
  | cons key rest ih =>
    intro hreg
    have hkey : (List.lookup key REPORTS).isSome = true :=
      hreg key (List.mem_cons_self _ _)
    obtain ⟨spec, hspec⟩ := Option.isSome_iff_exists.mp hkey
    have hrest : ∀ k ∈ rest, (List.lookup k REPORTS).isSome = true :=
      fun k hk => hreg k (List.mem_cons_of_mem _ hk)
    obtain ⟨ih1, ih2, ih3⟩ := ih hrest
    refine ⟨?_, ?_, ?_⟩
    · simp only [mainLoop, hspec]
      exact ih1
    · simp only [mainLoop, hspec, List.length_cons]
      rw [ih2]
    · intro k hk hfk
      rcases List.mem_cons.mp hk with hk | hk
      · subst hk
        refine ⟨spec, hspec, ?_⟩
        simp only [mainLoop, hspec, hfk, if_true]
        exact List.mem_cons_self _ _
      · obtain ⟨spec2, hspec2, hmem⟩ := ih3 k hk hfk
        refine ⟨spec2, hspec2, ?_⟩
        simp only [mainLoop, hspec]
        exact List.mem_cons_of_mem _ hmem

theorem c5_placeholder_and_continue_witness :
    (mainLoop ["top_videos"] (fun _ => true) (fun _ => [])).2 = none
    ∧ ∃ spec, List.lookup "top_videos" REPORTS = some spec
        ∧ (spec.outName, empty_cols "top_videos")
            ∈ (mainLoop ["top_videos"] (fun _ => true) (fun _ => [])).1 :=
  ⟨(c5_placeholder_and_continue ["top_videos"] (fun _ => true) (fun _ => [])
      (by decide)).1,
   (c5_placeholder_and_continue ["top_videos"] (fun _ => true) (fun _ => [])
      (by decide)).2.2 "top_videos" (by decide) (by decide)⟩

/-- C5 counterexample: the placeholder header for the `country` report is
only the dimension plus metadata columns, while a successful run of the
same report (whose remote response carries one header per requested
metric of `METRICS_BASIC`) produces a strictly larger column set - so the
placeholder does not have "the same column set a successful run would
produce". -/
theorem c5_counterexample :
    (List.lookup "country" REPORTS).map ReportSpec.metrics
      = some METRICS_BASIC
    ∧ outputColumns "country" (apiColumnHeaders "country" METRICS_BASIC_LIST)
      ≠ empty_cols "country" := by
  refine ⟨by decide, by decide⟩

/-- C6 (amended): an explicit window override takes effect only when both
bounds are supplied (a partial override is silently dropped, not an
error); when both are supplied the primary query window of every report is
exactly `[start, end]` whatever the probe results are, but the per-video
refinement queries of the `top_videos` branch use each video's
probe-derived publish date as the start - the start override is not
consulted there, only the end override applies. -/
theorem c6_overrides (s e lastRec channelStart pubDate : Int)
    (key : String) :
    resolveOverrides (some s) none = (none, none)
    ∧ resolveOverrides none (some e) = (none, none)
    ∧ resolveOverrides none none = (none, none)
    ∧ resolveWindow (resolveOverrides (some s) (some e)).1
        (resolveOverrides (some s) (some e)).2 lastRec channelStart key
        = (s, e)
    ∧ refineWindow (some s) (some e) lastRec (some pubDate)
        = (pubDate, e) := by
  refine ⟨rfl, rfl, rfl, ?_, rfl⟩
  show resolveWindow (some s) (some e) lastRec channelStart key = (s, e)
  unfold resolveWindow
  split <;> rfl

/-- C6 counterexample: with both `--start 100` and `--end 200` supplied,
the `top_videos` refinement query for a video whose probed publish date is
day 55 uses the window `[55, 200]`: its start is not the explicit start
override, and it does depend on the remote probe result. -/
theorem c6_counterexample :
    resolveOverrides (some 100) (some 200) = (some 100, some 200)
    ∧ refineWindow (some 100) (some 200) 0 (some 55) = (55, 200)
    ∧ (55 : Int) ≠ 100 := by
  refine ⟨rfl, rfl, by decide⟩

/-- C7: with no explicit override, the day (rolling-trend) report's window
is `[latest - 30 days, latest]` where `latest` is the date reported by the
remote probe; with a probe result of 2024-03-10 the window is exactly
`[2024-02-09, 2024-03-10]`. -/
theorem c7_day_window (lr channelStart today : Int) :
    resolveWindow none none (lastRecDate (some lr) today) channelStart "day"
      = (lr - 30, lr)
    ∧ resolveWindow none none (daysFromCivil 2024 3 10) channelStart "day"
      = (daysFromCivil 2024 2 9, daysFromCivil 2024 3 10) := by
  constructor
  · simp [resolveWindow, lastRecDate]
  · have h : daysFromCivil 2024 3 10 - 30 = daysFromCivil 2024 2 9 := by
      decide
    simp [resolveWindow, ← h]

/-- C8 (amended): normalization appends all three metadata columns -
window start, window end and the capture timestamp - for the aggregate
reports (`country`, `traffic_sources`, `top_videos`), but the day report
receives only the capture timestamp column `refresh_date`: its saved
dataframe carries no `from_date_time` / `to_date_time` columns. -/
theorem c8_metadata_columns (cols : List String) :
    outputColumns "country" cols
      = cols ++ ["from_date_time", "to_date_time", "refresh_date"]
    ∧ outputColumns "traffic_sources" cols
      = cols ++ ["from_date_time", "to_date_time", "refresh_date"]
    ∧ outputColumns "top_videos" cols
      = cols ++ ["from_date_time", "to_date_time", "refresh_date"]
    ∧ outputColumns "day" cols = cols ++ ["refresh_date"] := by
  refine ⟨?_, ?_, ?_, ?_⟩ <;>
    simp [outputColumns]

/-- C8 counterexample: a successful run of the day report saves the
fetched columns plus only `refresh_date`; in particular `from_date_time`
(the window start metadata column) is not among the saved columns, so not
every report receives all three fixed metadata columns. -/
theorem c8_counterexample :
    outputColumns "day" (apiColumnHeaders "day" METRICS_BASIC_LIST)
      = ("day" :: METRICS_BASIC_LIST) ++ ["refresh_date"]
    ∧ ¬ ("from_date_time"
          ∈ outputColumns "day" (apiColumnHeaders "day" METRICS_BASIC_LIST)) := by
  refine ⟨by decide, by decide⟩

/-- C9 (amended): a requested report identifier that is not registered in
the catalog fails its `REPORTS[key]` lookup before the per-report `try`
block, so the `KeyError` is not contained: the loop aborts at that key,
no file is saved for it, and the remaining requested reports are not
processed. -/
theorem c9_unknown_report_aborts (key : String) (rest : List String)
    (fails : String → Bool) (fetched : String → List String)
    (h : List.lookup key REPORTS = none) :
    mainLoop (key :: rest) fails fetched = ([], some key) := by
  simp [mainLoop, h]

theorem c9_unknown_report_aborts_witness :
    mainLoop ["nope", "day"] (fun _ => false) (fun _ => [])
      = ([], some "nope") :=
  c9_unknown_report_aborts "nope" ["day"] (fun _ => false) (fun _ => [])
    (by decide)

/-- C9 counterexample: requesting `["country", "nope", "day"]` saves one
file (for `country`) and then aborts on the unregistered `nope`; the
remaining report `day` is never processed, contradicting per-report
containment of the lookup failure. -/
theorem c9_counterexample :
    (mainLoop ["country", "nope", "day"] (fun _ => false)
      (fun _ => [])).1.length = 1
    ∧ (mainLoop ["country", "nope", "day"] (fun _ => false)
        (fun _ => [])).2 = some "nope" := by
  refine ⟨by decide, by decide⟩

/-- C10: whenever the latest-available-date probe yields no date (the
remote query raised, or returned no rows), `main` substitutes
`date.today() - timedelta(days=3)` as the latest date, and the default
window end of every report in that run becomes today minus 3 days. -/
theorem c10_probe_fallback (resp : Except Unit (List Int))
    (today channelStart : Int) (key : String)
    (h : latest_analytics_date resp = none) :
    lastRecDate (latest_analytics_date resp) today = today - 3
    ∧ (resolveWindow none none
        (lastRecDate (latest_analytics_date resp) today) channelStart
        key).2 = today - 3
    ∧ latest_analytics_date (Except.ok ([] : List Int)) = none
    ∧ latest_analytics_date (Except.error ()) = none := by
  refine ⟨?_, ?_, rfl, rfl⟩
  · rw [h]
    rfl
  · rw [h]
    unfold resolveWindow lastRecDate
    split <;> rfl

theorem c10_probe_fallback_witness :
    lastRecDate (latest_analytics_date (Except.error ())) 10 = 10 - 3
    ∧ (resolveWindow none none
        (lastRecDate (latest_analytics_date (Except.error ())) 10) 0
        "country").2 = 10 - 3 :=
  ⟨(c10_probe_fallback (Except.error ()) 10 0 "country" rfl).1,
   (c10_probe_fallback (Except.error ()) 10 0 "country" rfl).2.1⟩
